import Mathlib

/-!
Verification development for the stem-master audio editor core: a shallow
embedding of the Multi-Track Mix Engine (useAudioPlayer) and of the two
Separation Orchestrator variants (the synchronous-invoke hook
useStemSeparation and the older submit-then-poll variant of the same hook),
with theorems settling the frozen behavioural claims about mute/solo
resolution, transport completion, shared duration, result normalization,
upload URL validation, progress reporting, cancellation and single-flight.
-/

/-! ## Multi-Track Mix Engine (useAudioPlayer)

One playable channel merges the per-id entries of the React state records
volumes / mutedStems / soloStems with the AudioTrack media element; the
media element is represented by its current playback position. -/

structure StemTrack where
  id : String
  volume : Nat
  isMuted : Bool
  isSolo : Bool
  position : ℚ
deriving DecidableEq

/-- Engine-level state: the track set plus the shared transport fields
isPlaying, currentTime and duration of useAudioPlayer. -/
structure EngineState where
  tracks : List StemTrack
  isPlaying : Bool
  currentTime : ℚ
  duration : ℚ
deriving DecidableEq

/-- hasSolo of updateTrackVolumes: OR over all tracks of the solo flag. -/
def hasSolo (tracks : List StemTrack) : Bool :=
  tracks.any (fun t => t.isSolo)

/-- Per-track effective volume computed by updateTrackVolumes:
volume/100 by default; under any solo, non-soloed tracks get 0; otherwise a
muted track gets 0. -/
def effectiveVolume (tracks : List StemTrack) (t : StemTrack) : ℚ :=
  if hasSolo tracks then
    (if t.isSolo then (t.volume : ℚ) / 100 else 0)
  else if t.isMuted then 0
  else (t.volume : ℚ) / 100

/-- anySoloed as worded by the specification (section 4.3). -/
def anySoloed (tracks : List StemTrack) : Bool :=
  tracks.any (fun t => t.isSolo)

/-- Effective audibility as worded by the specification: soloed if any track
is soloed, else not muted. -/
def audibleSpec (tracks : List StemTrack) (t : StemTrack) : Bool :=
  (anySoloed tracks && t.isSolo) || (!anySoloed tracks && !t.isMuted)

/-- Effective gain as worded by the specification: 0 if not audible, else
volume/100. -/
def effectiveGainSpec (tracks : List StemTrack) (t : StemTrack) : ℚ :=
  if audibleSpec tracks t then (t.volume : ℚ) / 100 else 0

/-- setVolume(stemId, v): functional update of the volumes record. -/
def setVolume (stemId : String) (v : Nat) (tracks : List StemTrack) : List StemTrack :=
  tracks.map (fun t => if t.id = stemId then { t with volume := v } else t)

/-- toggleMute(stemId): flips the muted flag of the given stem only. -/
def toggleMute (stemId : String) (tracks : List StemTrack) : List StemTrack :=
  tracks.map (fun t => if t.id = stemId then { t with isMuted := !t.isMuted } else t)

/-- toggleSolo(stemId): flips the solo flag of the given stem only. -/
def toggleSolo (stemId : String) (tracks : List StemTrack) : List StemTrack :=
  tracks.map (fun t => if t.id = stemId then { t with isSolo := !t.isSolo } else t)

/-- One single mutation of the mixer state: a volume change, a mute toggle
or a solo toggle. -/
inductive MixMutation where
  | setVol (stemId : String) (v : Nat)
  | mute (stemId : String)
  | solo (stemId : String)

def applyMutation : MixMutation → List StemTrack → List StemTrack
  | .setVol stemId v, tracks => setVolume stemId v tracks
  | .mute stemId, tracks => toggleMute stemId tracks
  | .solo stemId, tracks => toggleSolo stemId tracks

/-- Engine-level toggleMute: only the track record changes; the transport
fields are untouched by the source callback. -/
def engToggleMute (stemId : String) (st : EngineState) : EngineState :=
  { st with tracks := toggleMute stemId st.tracks }

/-- Engine-level toggleSolo. -/
def engToggleSolo (stemId : String) (st : EngineState) : EngineState :=
  { st with tracks := toggleSolo stemId st.tracks }

/-- The ended listener of useAudioPlayer: setIsPlaying(false),
setCurrentTime(0), and every track media element is reset to position 0. -/
def onEnded (st : EngineState) : EngineState :=
  { st with
    isPlaying := false
    currentTime := 0
    tracks := st.tracks.map (fun t => { t with position := 0 }) }

/-- One tick of the demo-mode interval of useAudioPlayer (runs every 100ms
while playing with no audio URLs): if the previous time has reached the
duration, stop playing and return to 0, else advance by 0.1. -/
def demoTick (st : EngineState) : EngineState :=
  if st.duration ≤ st.currentTime then
    { st with isPlaying := false, currentTime := 0 }
  else
    { st with currentTime := st.currentTime + 1 / 10 }

/-- The loadedmetadata listener of useAudioPlayer. The listener closes over
the duration state value of the render in which the effect installed it
(the initial 0), not the live state, so capturedDuration stays 0 for the
whole session: this is the stale-closure behaviour of the source effect,
whose dependency array never changes within one mix session. -/
def onLoadedMetadata (capturedDuration : ℚ) (d : ℚ) (current : ℚ) : ℚ :=
  if d ≠ 0 ∧ capturedDuration < d then d else current

/-- Engine duration after the tracks report their media durations in the
given order: each loadedmetadata event runs the listener with the stale
captured duration 0. -/
def durationAfterLoads (loads : List ℚ) : ℚ :=
  loads.foldl (fun current d => onLoadedMetadata 0 d current) 0

/-! ## URL validation (isValidUrl of useStemSeparation) -/

/-- Substring test on character lists, used to model the JavaScript
String.prototype.includes check of isValidUrl. -/
def hasSub (needle : List Char) : List Char → Bool
  | [] => needle.isEmpty
  | c :: cs => needle.isPrefixOf (c :: cs) || hasSub needle cs

def isSchemeChar (c : Char) : Bool :=
  c.isAlphanum || c = '+' || c = '-' || c = '.'

def schemeTail : List Char → Bool
  | [] => false
  | c :: cs => if c = ':' then true else isSchemeChar c && schemeTail cs

/-- Executable model of WHATWG URL parse success, i.e. of the constructor
call in isValidUrl not throwing: the string must begin with a scheme (an
ASCII letter followed by letters, digits, plus, minus or dot) terminated by
a colon. Any scheme parses; the parser does not restrict to http or https. -/
def jsUrlParses (s : String) : Bool :=
  match s.toList with
  | [] => false
  | c :: cs => c.isAlpha && schemeTail cs

/-- isValidUrl of useStemSeparation: false for the empty string, false when
the string contains the literal token undefined, false when URL parsing
throws, true otherwise. -/
def isValidUrl (urlString : String) : Bool :=
  if urlString = "" then false
  else if hasSub "undefined".toList urlString.toList then false
  else jsUrlParses urlString

/-! ## Shared orchestrator data -/

inductive Stage where
  | idle | uploading | processing | complete | error
deriving DecidableEq

structure StemResult where
  id : String
  label : String
  url : String
deriving DecidableEq

/-! ## Synchronous-invoke orchestrator variant
(src/src/hooks/useStemSeparation.ts, the current hook) -/

namespace SyncHook

/-- STEM_LABELS lookup table of the current hook. -/
def STEM_LABELS : List (String × String) :=
  [("vocals", "Vocals"), ("drums", "Drums"), ("bass", "Bass"),
   ("other", "Other"), ("instrumental", "Instrumental"),
   ("guitar", "Guitar"), ("piano", "Piano")]

/-- STEM_LABELS[key] || key. -/
def stemLabel (key : String) : String :=
  (STEM_LABELS.lookup key).getD key

/-- Result normalization loop of processSeparation: iterate the output map
entries in order, keeping every entry whose value is a truthy string (the
remote contract is string-valued, so the truthiness test is the test for a
nonempty string), producing id / label / url records. -/
def normalizeStems (output : List (String × String)) : List StemResult :=
  (output.filter (fun kv => kv.2 != "")).map
    (fun kv => ⟨kv.1, stemLabel kv.1, kv.2⟩)

/-- errorTypeMap of getErrorMessage. -/
def errorTypeMap : List (String × String) :=
  [("MISSING_BACKEND_CONFIG", "A backend szerver nincs konfigurálva. Kérjük, ellenőrizze a telepítést."),
   ("INVALID_BACKEND_URL", "A backend szerver URL-je érvénytelen."),
   ("BACKEND_CONNECTION_FAILED", "A backend szerver nem elérhető. Kérjük, győződjön meg, hogy a FastAPI szerver fut."),
   ("AUDIO_DOWNLOAD_FAILED", "Az audio fájl letöltése sikertelen."),
   ("AUDIO_DOWNLOAD_HTTP_ERROR", "Az audio fájl már nem elérhető vagy nem érvényes."),
   ("INVALID_AUDIO_URL", "Az audio URL érvénytelen. A fájl feltöltése sikertelen lehet."),
   ("PROCESSING_FAILED", "Az audio feldolgozása sikertelen. Kérjük, próbálja újra."),
   ("UNEXPECTED_ERROR", "Váratlan hiba történt. Kérjük, próbálja újra később.")]

/-- getErrorMessage: errorTypeMap[errorType] || originalError || fallback. -/
def getErrorMessage (errorType : Option String) (originalError : String) : String :=
  match errorType.bind (fun t => errorTypeMap.lookup t) with
  | some m => m
  | none => if originalError = "" then "Feldolgozási hiba történt." else originalError

/-- The optional details suffix appended by processSeparation. -/
def detailsPart : Option String → String
  | some d => if d = "" then "" else " (" ++ d ++ ")"
  | none => ""

/-- Outcome of the two storage calls made by uploadToStorage: the blob store
write, then the signed URL request. -/
inductive StoreResult where
  | writeError (msg : String)
  | signError (msg : String)
  | signed (url : String)

/-- uploadToStorage of the current hook: a store write failure and a signed
URL failure each throw their own message; a returned URL failing isValidUrl
throws the distinct invalid-location message; otherwise the URL is
returned. -/
def uploadToStorage : StoreResult → Except String String
  | .writeError m => .error ("Feltöltés sikertelen: " ++ m)
  | .signError m => .error ("Signed URL létrehozása sikertelen: " ++ m)
  | .signed u =>
      if u = "" || !isValidUrl u then
        .error ("Tárolási URL érvénytelen: " ++ u ++ ". A Supabase kliens konfigurációja lehet hibás.")
      else .ok u

/-- Response of the single stem-separation invoke, as destructured by
processSeparation: a transport-level invokeError, or a data payload that
may carry an error object, a status and an output map. -/
structure SyncResponse where
  invokeError : Option String
  errJson : Option (Option String × String × Option String)
  status : Option String
  output : Option (List (String × String))

/-- The response handling of processSeparation, in source order: the
cancellation flag is checked first, then the invoke error, then the error
payload, then the status, then the output map; an output that normalizes to
zero stems is rejected even though the status was succeeded. -/
def processSeparation (cancelled : Bool) (resp : SyncResponse) :
    Except String (List StemResult) :=
  if cancelled then .error "Cancelled"
  else match resp.invokeError with
  | some m => .error ("Szétválasztás sikertelen: " ++ m)
  | none =>
    match resp.errJson with
    | some (errorType, errMsg, details) =>
        .error (getErrorMessage errorType errMsg ++ detailsPart details)
    | none =>
        if resp.status ≠ some "succeeded" then
          .error "Ismeretlen hiba történt a feldolgozás során"
        else match resp.output with
        | none => .error "Nem sikerült stem-eket kinyerni"
        | some output =>
            let results := normalizeStems output
            if results.isEmpty then
              .error "Nem sikerült stem-eket kinyerni a feldolgozás eredményéből"
            else .ok results

/-- Observable outcome of one run of the hook: final stage, progress,
message, error field, stems, busy flag, and how many calls were made to the
separation service. -/
structure RunState where
  stage : Stage
  progress : Nat
  message : String
  errorMsg : Option String
  stems : List StemResult
  isProcessing : Bool
  separationCalls : Nat
deriving DecidableEq

/-- separateFromUrl of the current hook: run processSeparation once; on
success set stage complete with progress 100; on a thrown message other
than Cancelled set the error field and stage error with progress 0; a
Cancelled throw leaves the state that cancel() wrote (idle, no error). -/
def separateFromUrl (cancelled : Bool) (resp : SyncResponse) : RunState :=
  match processSeparation cancelled resp with
  | .ok results => ⟨.complete, 100, "Szétválasztás kész!", none, results, false, 1⟩
  | .error msg =>
      if msg = "Cancelled" then ⟨.idle, 0, "Megszakítva", none, [], false, 1⟩
      else ⟨.error, 0, msg, some msg, [], false, 1⟩

/-- separate of the current hook: uploadToStorage first; a throw there is
caught before any separation-service call (separationCalls stays 0);
otherwise the flow continues exactly as separateFromUrl. -/
def separate (cancelled : Bool) (store : StoreResult) (resp : SyncResponse) : RunState :=
  match uploadToStorage store with
  | .error msg => ⟨.error, 0, msg, some msg, [], false, 0⟩
  | .ok _ => separateFromUrl cancelled resp

/-- Full hook-visible state, used to show that starting a run never
inspects the previous stage. -/
structure UiState where
  stage : Stage
  progress : Nat
  message : String
  errorMsg : Option String
  stems : List StemResult
  isProcessing : Bool
  cancelled : Bool
deriving DecidableEq

/-- The synchronous prologue of separate / separateFromUrl: set the busy
flag, clear error and stems, and clear the cancellation flag. There is no
guard on stage or isProcessing and no cancellation of a previous job. -/
def separateEntry (st : UiState) : UiState :=
  { st with isProcessing := true, errorMsg := none, stems := [], cancelled := false }

/-- One whole run of separate starting from an arbitrary previous UI state:
the prologue runs unconditionally and every later write overwrites the
previous fields, so the previous stage never influences the run. -/
def separateRun (prior : UiState) (store : StoreResult) (resp : SyncResponse) : UiState :=
  let entry := separateEntry prior
  match uploadToStorage store with
  | .error msg =>
      { entry with stage := .error, progress := 0, message := msg,
                   errorMsg := some msg, isProcessing := false }
  | .ok _ =>
      match processSeparation entry.cancelled resp with
      | .ok results =>
          { entry with stage := .complete, progress := 100,
                       message := "Szétválasztás kész!", stems := results,
                       isProcessing := false }
      | .error msg =>
          if msg = "Cancelled" then
            { entry with stage := .idle, progress := 0, message := "Megszakítva",
                         isProcessing := false }
          else
            { entry with stage := .error, progress := 0, message := msg,
                         errorMsg := some msg, isProcessing := false }

/-- One step of the simulated progress ramp interval of processSeparation:
below 90 it advances by 5 capped at 90, at or above 90 it stays put. -/
def rampStep (p : Nat) : Nat :=
  if p < 90 then min (p + 5) 90 else p

end SyncHook

/-! ## Submit-then-poll orchestrator variant
(the older useStemSeparation in src/unnamed/part_004) -/

namespace PollHook

/-- STEM_LABELS lookup table of the polling variant (it has no entry for
instrumental). -/
def STEM_LABELS : List (String × String) :=
  [("vocals", "Vocals"), ("drums", "Drums"), ("bass", "Bass"),
   ("other", "Other"), ("guitar", "Guitar"), ("piano", "Piano")]

/-- STEM_LABELS[key] || key. -/
def stemLabel (key : String) : String :=
  (STEM_LABELS.lookup key).getD key

/-- Result normalization loop of pollPrediction on a succeeded status:
identical in shape to the synchronous variant. -/
def normalizeStems (output : List (String × String)) : List StemResult :=
  (output.filter (fun kv => kv.2 != "")).map
    (fun kv => ⟨kv.1, stemLabel kv.1, kv.2⟩)

/-- The remote status values observed by pollPrediction. -/
inductive PollStatus where
  | starting | processing | succeeded | failed | canceled
deriving DecidableEq

/-- The progressValue computation of pollPrediction: a default of 30,
overridden to 25 for starting and 50 for processing. The progress written
on each non-terminal poll is this value of the polled status alone; the
previous progress is not consulted. -/
def progressValueFor : PollStatus → Nat
  | .starting => 25
  | .processing => 50
  | _ => 30

/-- The per-status message written by the non-terminal branch of
pollPrediction: a default of Processing..., overridden for starting and
processing. -/
def messageFor : PollStatus → String
  | .starting => "Starting AI model..."
  | .processing => "Separating stems (this may take a few minutes)..."
  | _ => "Processing..."

/-- When cancel() is invoked relative to the status calls of one run.
beforeCall k: the flag is set after k status calls have completed and
committed their updates, while the loop sits in the poll-timer wait (which
cancel clears) — the loop either never wakes or observes the flag at the
top of poll() before any further status call. duringCall k: the flag is
set after k status calls have completed, while call k+1 is already in
flight — poll() performs no flag check after its await, so that response
is still processed when it arrives. -/
inductive CancelPoint where
  | beforeCall (k : Nat)
  | duringCall (k : Nat)
deriving DecidableEq

/-- One completed status call brings the cancel point one call closer. -/
def cancelStep : CancelPoint → CancelPoint
  | .beforeCall n => .beforeCall (n - 1)
  | .duringCall n => .duringCall (n - 1)

/-- Outcome of the recursive poll loop. cancelledAfterCommit s: the flag
was set while the call that returned the non-terminal status s was in
flight; its progress update still committed (after the idle state that
cancel() wrote), the fresh poll timer then fired — cancel() had cleared
only the previous timer — and the next top-of-loop check threw
Cancelled. -/
inductive PollOutcome where
  | success (results : List StemResult)
  | failure (msg : String)
  | cancelled
  | cancelledAfterCommit (s : PollStatus)
deriving DecidableEq

/-- The recursive poll loop of pollPrediction, driven by the list of
statuses the backend answers with, one per status call, and by the cancel
point (none: no cancellation). The cancellation flag is checked only at
the top of poll(); a response whose call was already in flight when
cancel() ran is processed exactly like an uncancelled one — a succeeded or
failed/canceled response returns or throws as usual, and a non-terminal
response commits its progress update before the loop finally observes the
flag. Returns the outcome, the number of status calls performed, and the
progress values committed by fully completed non-terminal polls (the value
committed by an in-flight-cancelled poll is carried in the outcome). -/
def pollLoop (output : List (String × String)) (script : List PollStatus)
    (cp : Option CancelPoint) : PollOutcome × Nat × List Nat :=
  if cp = some (.beforeCall 0) then (.cancelled, 0, [])
  else match script with
  | [] => (.failure "Failed to check status: backend unavailable", 0, [])
  | s :: rest =>
    match s with
    | .succeeded => (.success (normalizeStems output), 1, [])
    | .failed => (.failure "Separation failed", 1, [])
    | .canceled => (.failure "Separation failed", 1, [])
    | _ =>
        if cp = some (.duringCall 0) then (.cancelledAfterCommit s, 1, [])
        else
          let r := pollLoop output rest (cp.map cancelStep)
          (r.1, r.2.1 + 1, progressValueFor s :: r.2.2)

/-- Observable outcome of one run of the polling hook: final state plus the
number of status calls made and the whole sequence of progress values
written during the run, in order. -/
structure AsyncRun where
  stage : Stage
  progress : Nat
  message : String
  errorMsg : Option String
  stems : List StemResult
  isProcessing : Bool
  statusCalls : Nat
  progressTrace : List Nat
deriving DecidableEq

/-- separateFromUrl of the polling variant, after a successful submission
(startSeparation wrote progress 20 and returned a prediction id): poll to a
terminal outcome, then either filter to the selected stems and finish at
stage complete with progress 100 (no flag check happens after the await of
pollPrediction either), or finish at stage error with progress 0 and the
error field set (the catch writes setError for every message other than
Cancelled — also for the throw of a failed response that resolved after
cancel()), or — when cancel() ran while the loop was between calls — keep
the state cancel() wrote: stage idle, the Cancelled message, and a
never-populated error field. When cancel() ran while a status call was in
flight and that call returned a non-terminal status, the late response
overwrites the idle state written by cancel() with its processing update,
the following Cancelled throw is swallowed by the catch, and the run is
left at stage processing with that update committed; the trace records the
idle 0 written by cancel() followed by the late progress value. -/
def separateFromUrl (output : List (String × String)) (script : List PollStatus)
    (selectedStems : Option (List String)) (cp : Option CancelPoint) : AsyncRun :=
  let r := pollLoop output script cp
  match r.1 with
  | .success results =>
      let filtered :=
        match selectedStems with
        | some sel => if sel.length ≠ 0 then results.filter (fun x => sel.contains x.id) else results
        | none => results
      ⟨.complete, 100, "Separation complete!", none, filtered, false, r.2.1, 20 :: r.2.2 ++ [100]⟩
  | .failure msg =>
      ⟨.error, 0, msg, some msg, [], false, r.2.1, 20 :: r.2.2 ++ [0]⟩
  | .cancelled =>
      ⟨.idle, 0, "Cancelled", none, [], false, r.2.1, 20 :: r.2.2 ++ [0]⟩
  | .cancelledAfterCommit s =>
      ⟨.processing, progressValueFor s, messageFor s, none, [], false, r.2.1,
        20 :: r.2.2 ++ [0, progressValueFor s]⟩

/-- Rank of a non-terminal status in the natural remote order, used to
state that a status sequence does not regress. -/
def statusRank : PollStatus → Nat
  | .starting => 0
  | .processing => 1
  | .succeeded => 2
  | .failed => 2
  | .canceled => 2

end PollHook

/-! ## Concrete fixtures used by witnesses -/

/-- A four-stem mixer state (drums muted) used by concrete witnesses. -/
def demoTracks : List StemTrack :=
  [⟨"vocals", 80, false, false, 0⟩, ⟨"drums", 70, true, false, 0⟩,
   ⟨"bass", 60, false, false, 0⟩, ⟨"other", 50, false, false, 0⟩]

/-- A demo-mode engine state whose simulated clock has reached the nominal
3 minute duration. -/
def demoEngineState : EngineState :=
  ⟨demoTracks, true, 180, 180⟩

/-! ## Theorems: Mix Engine -/

theorem effectiveVolume_eq_spec (tracks : List StemTrack) (t : StemTrack) :
    effectiveVolume tracks t = effectiveGainSpec tracks t := by
  unfold effectiveVolume effectiveGainSpec audibleSpec anySoloed hasSolo
  cases hs : tracks.any (fun t => t.isSolo) <;>
    cases ht : t.isSolo <;> cases hm : t.isMuted <;> simp [hs, ht, hm]

theorem toggleMute_toggleMute (i : String) (l : List StemTrack) :
    toggleMute i (toggleMute i l) = l := by
  induction l with
  | nil => rfl
  | cons t ts ih =>
      simp only [toggleMute, List.map_cons] at ih ⊢
      rw [ih]
      by_cases h : t.id = i
      · simp [h]
        rw [← h]
      · simp [h]

theorem toggleSolo_toggleSolo (i : String) (l : List StemTrack) :
    toggleSolo i (toggleSolo i l) = l := by
  induction l with
  | nil => rfl
  | cons t ts ih =>
      simp only [toggleSolo, List.map_cons] at ih ⊢
      rw [ih]
      by_cases h : t.id = i
      · simp [h]
        rw [← h]
      · simp [h]

theorem toggleMute_map_proj (i : String) (l : List StemTrack) :
    (toggleMute i l).map (fun t => (t.id, t.volume, t.isSolo, t.position)) =
      l.map (fun t => (t.id, t.volume, t.isSolo, t.position)) := by
  induction l with
  | nil => rfl
  | cons t ts ih =>
      simp only [toggleMute, List.map_cons] at ih ⊢
      rw [ih]
      by_cases h : t.id = i <;> simp [h]

theorem toggleSolo_map_proj (i : String) (l : List StemTrack) :
    (toggleSolo i l).map (fun t => (t.id, t.volume, t.isMuted, t.position)) =
      l.map (fun t => (t.id, t.volume, t.isMuted, t.position)) := by
  induction l with
  | nil => rfl
  | cons t ts ih =>
      simp only [toggleSolo, List.map_cons] at ih ⊢
      rw [ih]
      by_cases h : t.id = i <;> simp [h]

theorem toggleMute_filter_ne (i : String) (l : List StemTrack) :
    (toggleMute i l).filter (fun t => t.id != i) = l.filter (fun t => t.id != i) := by
  induction l with
  | nil => rfl
  | cons t ts ih =>
      simp only [toggleMute, List.map_cons, List.filter_cons] at ih ⊢
      by_cases h : t.id = i <;> simp [h, ih]

theorem toggleSolo_filter_ne (i : String) (l : List StemTrack) :
    (toggleSolo i l).filter (fun t => t.id != i) = l.filter (fun t => t.id != i) := by
  induction l with
  | nil => rfl
  | cons t ts ih =>
      simp only [toggleSolo, List.map_cons, List.filter_cons] at ih ⊢
      by_cases h : t.id = i <;> simp [h, ih]

theorem hasSolo_false_of_none (l : List StemTrack) (h : ∀ t ∈ l, t.isSolo = false) :
    hasSolo l = false := by
  unfold hasSolo
  simp only [List.any_eq_false]
  intro t ht
  simp [h t ht]

/-- C1: mute/solo resolution in the Mix Engine. After any single mutation of
volume, muted or soloed, every track of the resulting mixer state gets the
effective gain of the specification rule: with anySoloed the OR of all solo
flags, a track is audible iff (anySoloed and soloed) or (not anySoloed and
not muted), and its gain is volume/100 if audible, else 0 (the rule is
recomputed from the whole state, so this holds for every state, mutated or
not). Moreover, soloing any one track of a mix in which nothing is soloed
forces every other track to gain 0 regardless of its muted flag, and
un-soloing it restores every track to its own mute-derived gain. -/
theorem mute_solo_resolution :
    (∀ (tracks : List StemTrack) (m : MixMutation) (t : StemTrack),
      t ∈ applyMutation m tracks →
        effectiveVolume (applyMutation m tracks) t =
          effectiveGainSpec (applyMutation m tracks) t) ∧
    (∀ (tracks : List StemTrack) (i : String),
      (∀ t ∈ tracks, t.isSolo = false) →
      (∃ t ∈ tracks, t.id = i) →
        (∀ t ∈ toggleSolo i tracks, t.id ≠ i →
          effectiveVolume (toggleSolo i tracks) t = 0) ∧
        (∀ t ∈ toggleSolo i (toggleSolo i tracks),
          effectiveVolume (toggleSolo i (toggleSolo i tracks)) t =
            if t.isMuted then 0 else (t.volume : ℚ) / 100)) := by
  constructor
  · intro tracks m t _
    exact effectiveVolume_eq_spec _ t
  · intro tracks i hns hmem
    have hsolo : hasSolo (toggleSolo i tracks) = true := by
      obtain ⟨t0, ht0, hid⟩ := hmem
      unfold hasSolo
      simp only [List.any_eq_true]
      refine ⟨if t0.id = i then { t0 with isSolo := !t0.isSolo } else t0, ?_, ?_⟩
      · exact List.mem_map_of_mem _ ht0
      · simp [hid, hns t0 ht0]
    constructor
    · intro t ht hne
      obtain ⟨t0, ht0, heq⟩ := List.mem_map.mp ht
      have ht0i : ¬ t0.id = i := by
        intro hid
        apply hne
        rw [← heq]
        simp [hid]
      have heq' : t = t0 := by rw [← heq]; simp [ht0i]
      have : t.isSolo = false := heq' ▸ hns t0 ht0
      unfold effectiveVolume
      rw [hsolo]
      simp [this]
    · intro t ht
      rw [toggleSolo_toggleSolo] at ht ⊢
      have hns' : hasSolo tracks = false := hasSolo_false_of_none tracks hns
      unfold effectiveVolume
      rw [hns']
      simp

/-- Witness for C1 at a concrete input: soloing vocals in the four-stem
demo mix forces the muted drums track (id drums, not the soloed id) to
effective gain 0. -/
theorem mute_solo_resolution_witness :
    effectiveVolume (toggleSolo "vocals" demoTracks) ⟨"drums", 70, true, false, 0⟩ = 0 :=
  (mute_solo_resolution.2 demoTracks "vocals" (by decide) (by decide)).1
    ⟨"drums", 70, true, false, 0⟩ (by decide) (by decide)

/-- C10: toggleMute and toggleSolo are involutions that touch nothing else.
Applying either toggle twice returns the whole engine state (every flag,
hence every effective gain) to its value before the first call; a single
toggle leaves isPlaying, currentTime and duration unchanged, leaves every
field of every track other than the toggled flag unchanged (the projection
equalities), and leaves every track whose id differs from the argument
entirely unchanged (the filter equalities). -/
theorem toggle_involution_frame :
    ∀ (st : EngineState) (i : String),
      engToggleMute i (engToggleMute i st) = st ∧
      engToggleSolo i (engToggleSolo i st) = st ∧
      (engToggleMute i st).isPlaying = st.isPlaying ∧
      (engToggleMute i st).currentTime = st.currentTime ∧
      (engToggleMute i st).duration = st.duration ∧
      (engToggleMute i st).tracks.map (fun t => (t.id, t.volume, t.isSolo, t.position)) =
        st.tracks.map (fun t => (t.id, t.volume, t.isSolo, t.position)) ∧
      (engToggleMute i st).tracks.filter (fun t => t.id != i) =
        st.tracks.filter (fun t => t.id != i) ∧
      (engToggleSolo i st).isPlaying = st.isPlaying ∧
      (engToggleSolo i st).currentTime = st.currentTime ∧
      (engToggleSolo i st).duration = st.duration ∧
      (engToggleSolo i st).tracks.map (fun t => (t.id, t.volume, t.isMuted, t.position)) =
        st.tracks.map (fun t => (t.id, t.volume, t.isMuted, t.position)) ∧
      (engToggleSolo i st).tracks.filter (fun t => t.id != i) =
        st.tracks.filter (fun t => t.id != i) := by
  intro st i
  refine ⟨?_, ?_, rfl, rfl, rfl, toggleMute_map_proj i st.tracks,
    toggleMute_filter_ne i st.tracks, rfl, rfl, rfl, toggleSolo_map_proj i st.tracks,
    toggleSolo_filter_ne i st.tracks⟩
  · simp [engToggleMute, toggleMute_toggleMute]
  · simp [engToggleSolo, toggleSolo_toggleSolo]

/-- C8: end-of-media completion. The ended listener of the reference track
stops playback, resets the shared current time to 0 and resets every track
position to 0; in demo mode, once the simulated clock has reached the
nominal duration, the next tick stops playback and resets the shared time
to 0, and the (never-started) demo track positions all stay at 0. -/
theorem end_of_media_resets :
    ∀ st : EngineState,
      ((onEnded st).isPlaying = false ∧ (onEnded st).currentTime = 0 ∧
        ∀ t ∈ (onEnded st).tracks, t.position = 0) ∧
      (st.isPlaying = true → st.duration ≤ st.currentTime →
        (demoTick st).isPlaying = false ∧ (demoTick st).currentTime = 0 ∧
        ((∀ t ∈ st.tracks, t.position = 0) →
          ∀ t ∈ (demoTick st).tracks, t.position = 0)) := by
  intro st
  constructor
  · refine ⟨rfl, rfl, ?_⟩
    intro t ht
    simp only [onEnded, List.mem_map] at ht
    obtain ⟨t0, _, heq⟩ := ht
    rw [← heq]
  · intro _ hdur
    unfold demoTick
    rw [if_pos hdur]
    exact ⟨rfl, rfl, fun h t ht => h t ht⟩

/-- Witness for C8 at a concrete input: the demo engine state at 180 of 180
seconds stops and resets on the next tick. -/
theorem end_of_media_resets_witness :
    (demoTick demoEngineState).isPlaying = false ∧
      (demoTick demoEngineState).currentTime = 0 :=
  ⟨((end_of_media_resets demoEngineState).2 (by decide) (by decide)).1,
   ((end_of_media_resets demoEngineState).2 (by decide) (by decide)).2.1⟩

/-- C9 fails on the code: the loadedmetadata listener compares each newly
reported media duration against the stale duration value captured when the
listener was installed (always 0), so every track with a nonzero duration
overwrites the shared duration and the engine ends up with the duration of
the LAST track to finish loading metadata, not the maximum. Concretely,
with two tracks reporting 100 then 50, the engine duration is 50 while the
maximum is 100. -/
theorem duration_last_loaded_not_max :
    durationAfterLoads [100, 50] = 50 ∧
    ([100, 50] : List ℚ).foldl max 0 = 100 ∧
    ¬ durationAfterLoads [100, 50] = ([100, 50] : List ℚ).foldl max 0 := by
  refine ⟨?_, ?_, ?_⟩ <;> decide

/-! ## Theorems: Separation Orchestrator -/

/-- C2 fails on the code for the polling variant: when the backend reports
succeeded with an empty output map, the current synchronous hook does end
the run at stage error with the no-stems message (first two conjuncts), but
the polling variant of the hook returns the empty normalized list from
pollPrediction and its separateFromUrl finishes at stage complete with zero
stems and no error — the success status with empty output is surfaced as
success there, contradicting the claim. -/
theorem empty_success_sync_error_async_complete :
    (SyncHook.separateFromUrl false ⟨none, none, some "succeeded", some []⟩).stage = .error ∧
    (SyncHook.separateFromUrl false ⟨none, none, some "succeeded", some []⟩).errorMsg =
      some "Nem sikerült stem-eket kinyerni a feldolgozás eredményéből" ∧
    (PollHook.separateFromUrl [] [.succeeded] none none).stage = .complete ∧
    (PollHook.separateFromUrl [] [.succeeded] none none).stems = [] ∧
    (PollHook.separateFromUrl [] [.succeeded] none none).errorMsg = none := by
  refine ⟨?_, ?_, ?_, ?_, ?_⟩ <;> rfl

/-- C3 fails on the code: starting a separation never inspects the previous
stage or busy flag. A whole run of separate from any prior UI state equals
the run from the pristine idle state (first conjunct: no rejection branch
exists), the entry prologue clears — rather than sets — the cancellation
flag, so the previous in-flight job is not cancelled either (second
conjunct), and concretely a second separate issued while the state is mid
processing runs to completion (third conjunct). -/
theorem start_ignores_inflight_state :
    (∀ (prior : SyncHook.UiState) (store : SyncHook.StoreResult)
        (resp : SyncHook.SyncResponse),
      SyncHook.separateRun prior store resp =
        SyncHook.separateRun ⟨.idle, 0, "Ready", none, [], false, false⟩ store resp) ∧
    (∀ prior : SyncHook.UiState,
      (SyncHook.separateEntry prior).cancelled = false ∧
      (SyncHook.separateEntry prior).isProcessing = true) ∧
    (SyncHook.separateRun ⟨.processing, 50, "Szétválasztás folyamatban", none, [], true, false⟩
        (.signed "https://host/a.mp3")
        ⟨none, none, some "succeeded", some [("vocals", "u1")]⟩).stage = .complete := by
  refine ⟨?_, fun prior => ⟨rfl, rfl⟩, rfl⟩
  intro prior store resp
  unfold SyncHook.separateRun SyncHook.separateEntry
  cases h : SyncHook.uploadToStorage store with
  | error msg => rfl
  | ok u =>
      cases h2 : SyncHook.processSeparation false resp with
      | ok results => rfl
      | error msg =>
          by_cases hc : msg = "Cancelled" <;> simp [hc]

/-- C6: result normalization. For a successful response whose output map has
only nonempty string values (the remote contract), normalization produces
one id/label/url record per map entry in entry order (first conjunct); the
label comes from the lookup table — vocals, drums, bass, other,
instrumental, guitar, piano — (next conjuncts) and falls back to the raw
key when the lookup finds nothing; when a nonempty subset of stems was
requested, the polling variant filters the normalized sequence to that
subset; and for output vocals ↦ url1, drums ↦ url2 the current hook ends at
stage complete with exactly the two expected records. -/
theorem result_normalization_order_labels :
    (∀ output : List (String × String), (∀ kv ∈ output, kv.2 ≠ "") →
      SyncHook.normalizeStems output =
        output.map (fun kv => ⟨kv.1, SyncHook.stemLabel kv.1, kv.2⟩)) ∧
    (SyncHook.stemLabel "vocals" = "Vocals" ∧ SyncHook.stemLabel "drums" = "Drums" ∧
     SyncHook.stemLabel "bass" = "Bass" ∧ SyncHook.stemLabel "other" = "Other" ∧
     SyncHook.stemLabel "instrumental" = "Instrumental" ∧
     SyncHook.stemLabel "guitar" = "Guitar" ∧ SyncHook.stemLabel "piano" = "Piano") ∧
    (∀ key : String, SyncHook.STEM_LABELS.lookup key = none →
      SyncHook.stemLabel key = key) ∧
    (∀ (output : List (String × String)) (sel : List String), sel.length ≠ 0 →
      (PollHook.separateFromUrl output [.succeeded] (some sel) none).stems =
        (PollHook.separateFromUrl output [.succeeded] none none).stems.filter
          (fun r => sel.contains r.id)) ∧
    ((SyncHook.separateFromUrl false
        ⟨none, none, some "succeeded", some [("vocals", "url1"), ("drums", "url2")]⟩).stems =
      [⟨"vocals", "Vocals", "url1"⟩, ⟨"drums", "Drums", "url2"⟩] ∧
     (SyncHook.separateFromUrl false
        ⟨none, none, some "succeeded", some [("vocals", "url1"), ("drums", "url2")]⟩).stage =
      .complete) := by
  refine ⟨?_, ⟨rfl, rfl, rfl, rfl, rfl, rfl, rfl⟩, ?_, ?_, rfl, rfl⟩
  · intro output h
    unfold SyncHook.normalizeStems
    rw [List.filter_eq_self.mpr]
    intro kv hkv
    simpa using h kv hkv
  · intro key h
    unfold SyncHook.stemLabel
    rw [h]
    rfl
  · intro output sel hsel
    unfold PollHook.separateFromUrl PollHook.pollLoop
    simp [hsel]

/-- Witness for C6 at a concrete input: a single-entry output map with a
nonempty url normalizes to the single expected record. -/
theorem result_normalization_witness :
    SyncHook.normalizeStems [("vocals", "url1")] =
      [⟨"vocals", "Vocals", "url1"⟩] :=
  (result_normalization_order_labels.1 [("vocals", "url1")] (by decide)).trans (by rfl)

/-- C7 fails on the code as stated: isValidUrl never examines the URL
scheme, so a syntactically parseable non-http(s) URL returned by the store
passes validation, uploadToStorage returns it, and the run proceeds to call
the separation service instead of failing with an invalid-location error. -/
theorem non_http_scheme_passes_validation :
    isValidUrl "ftp://host/file.mp3" = true ∧
    SyncHook.uploadToStorage (.signed "ftp://host/file.mp3") = .ok "ftp://host/file.mp3" ∧
    (SyncHook.separate false (.signed "ftp://host/file.mp3")
        ⟨none, none, some "succeeded", some [("vocals", "u1")]⟩).separationCalls = 1 ∧
    (SyncHook.separate false (.signed "ftp://host/file.mp3")
        ⟨none, none, some "succeeded", some [("vocals", "u1")]⟩).stage = .complete := by
  refine ⟨?_, ?_, ?_, ?_⟩ <;> rfl

/-- C7 as amended: a store write failure surfaces as the upload-failed
error without any separation-service call; a returned URL that is empty,
not URL-parseable or contains the literal token undefined fails isValidUrl,
and then separate fails with the distinct invalid-location error, again
with zero separation-service calls (the failure happens before any network
call to the separation service); the two error messages are distinct. The
scheme, however, is not validated (see the counterexample theorem). -/
theorem upload_validation_invalid_location :
    (∀ (m : String) (resp : SyncHook.SyncResponse),
      (SyncHook.separate false (.writeError m) resp).errorMsg =
        some ("Feltöltés sikertelen: " ++ m) ∧
      (SyncHook.separate false (.writeError m) resp).separationCalls = 0 ∧
      (SyncHook.separate false (.writeError m) resp).stage = .error) ∧
    (∀ (u : String) (resp : SyncHook.SyncResponse), isValidUrl u = false →
      (SyncHook.separate false (.signed u) resp).errorMsg =
        some ("Tárolási URL érvénytelen: " ++ u ++
          ". A Supabase kliens konfigurációja lehet hibás.") ∧
      (SyncHook.separate false (.signed u) resp).separationCalls = 0 ∧
      (SyncHook.separate false (.signed u) resp).stage = .error) ∧
    isValidUrl "" = false ∧
    isValidUrl "https://host/path/undefined-file.mp3" = false ∧
    isValidUrl "not a url" = false ∧
    ("Feltöltés sikertelen: store down" ≠
      "Tárolási URL érvénytelen: x. A Supabase kliens konfigurációja lehet hibás.") := by
  refine ⟨?_, ?_, rfl, by decide, by decide, by decide⟩
  · intro m resp
    exact ⟨rfl, rfl, rfl⟩
  · intro u resp h
    unfold SyncHook.separate SyncHook.uploadToStorage
    simp [h]

/-- Witness for C7 at a concrete input: the store returning a URL with the
literal undefined token makes separate fail before any separation call. -/
theorem upload_validation_invalid_location_witness :
    (SyncHook.separate false (.signed "https://host/path/undefined-file.mp3")
        ⟨none, none, some "succeeded", some [("vocals", "u1")]⟩).separationCalls = 0 ∧
    (SyncHook.separate false (.signed "https://host/path/undefined-file.mp3")
        ⟨none, none, some "succeeded", some [("vocals", "u1")]⟩).stage = .error :=
  ⟨(upload_validation_invalid_location.2.1 "https://host/path/undefined-file.mp3"
      ⟨none, none, some "succeeded", some [("vocals", "u1")]⟩ (by decide)).2.1,
   (upload_validation_invalid_location.2.1 "https://host/path/undefined-file.mp3"
      ⟨none, none, some "succeeded", some [("vocals", "u1")]⟩ (by decide)).2.2⟩

theorem pollLoop_cancel (output : List (String × String)) :
    ∀ (k : Nat) (script : List PollHook.PollStatus), k ≤ script.length →
      (∀ s ∈ script.take k, s = .starting ∨ s = .processing) →
      PollHook.pollLoop output script (some (.beforeCall k)) =
        (.cancelled, k, (script.take k).map PollHook.progressValueFor) := by
  intro k
  induction k with
  | zero =>
      intro script _ _
      unfold PollHook.pollLoop
      simp
  | succ k ih =>
      intro script hlen hpre
      cases script with
      | nil => simp at hlen
      | cons s rest =>
          have h1 : k ≤ rest.length := by simp at hlen; omega
          have h2 : ∀ x ∈ rest.take k, x = .starting ∨ x = .processing := by
            intro x hx
            exact hpre x (by simp [List.take_succ_cons, List.mem_cons, hx])
          rcases hpre s (by simp [List.take_succ_cons]) with h | h <;> subst h <;>
            simp [PollHook.pollLoop, PollHook.cancelStep, ih rest h1 h2,
              List.take_succ_cons]

theorem pollLoop_success (output : List (String × String)) :
    ∀ (pre : List PollHook.PollStatus),
      (∀ s ∈ pre, s = .starting ∨ s = .processing) →
      PollHook.pollLoop output (pre ++ [.succeeded]) none =
        (.success (PollHook.normalizeStems output), pre.length + 1,
          pre.map PollHook.progressValueFor) := by
  intro pre
  induction pre with
  | nil =>
      intro _
      simp [PollHook.pollLoop]
  | cons s rest ih =>
      intro hmem
      rcases hmem s (by simp) with h | h <;> subst h <;>
        simp [PollHook.pollLoop, ih (fun x hx => hmem x (by simp [hx])), List.cons_append]

theorem pollLoop_trace_le (output : List (String × String)) :
    ∀ (script : List PollHook.PollStatus) (cp : Option PollHook.CancelPoint),
      ∀ p ∈ (PollHook.pollLoop output script cp).2.2, p ≤ 50 := by
  intro script
  induction script with
  | nil =>
      intro cp p hp
      unfold PollHook.pollLoop at hp
      split at hp
      · simp at hp
      · simp at hp
  | cons s rest ih =>
      intro cp p hp
      by_cases hc0 : cp = some (.beforeCall 0)
      · unfold PollHook.pollLoop at hp
        simp [hc0] at hp
      · by_cases hc1 : cp = some (.duringCall 0)
        · unfold PollHook.pollLoop at hp
          cases s <;> simp [hc0, hc1] at hp
        · unfold PollHook.pollLoop at hp
          cases s with
          | succeeded => simp [hc0] at hp
          | failed => simp [hc0] at hp
          | canceled => simp [hc0] at hp
          | starting =>
              simp [hc0, hc1] at hp
              rcases hp with h | h
              · rw [h]; decide
              · exact ih _ p h
          | processing =>
              simp [hc0, hc1] at hp
              rcases hp with h | h
              · rw [h]; decide
              · exact ih _ p h

/-- C4 fails on the code: pollPrediction checks the cancellation flag only
at the top of poll(), never after the status await. When cancel() lands
between polls (beforeCall: the flag is set and the pending timer cleared
while the loop waits) the run does behave as claimed — it makes no further
status call and ends at stage idle with the Cancelled message and a
never-populated error field (first conjunct). But when cancel() lands
while a status call is in flight (duringCall), the resolved response still
commits with no flag check: a failed response throws and the catch
populates the error field with stage error; a non-terminal response
overwrites the idle state written by cancel(), leaving the run at stage
processing; a succeeded response commits stage complete — each
contradicting the claim that cancel resets stage to idle and never
populates the error field. -/
theorem cancel_mid_invoke_commits_state :
    (∀ (output : List (String × String)) (script : List PollHook.PollStatus)
        (sel : Option (List String)) (k : Nat),
      k ≤ script.length →
      (∀ s ∈ script.take k, s = .starting ∨ s = .processing) →
      (PollHook.separateFromUrl output script sel (some (.beforeCall k))).stage = .idle ∧
      (PollHook.separateFromUrl output script sel (some (.beforeCall k))).errorMsg = none ∧
      (PollHook.separateFromUrl output script sel (some (.beforeCall k))).message = "Cancelled" ∧
      (PollHook.separateFromUrl output script sel (some (.beforeCall k))).statusCalls = k) ∧
    (PollHook.separateFromUrl [("vocals", "u")] [.failed] none
        (some (.duringCall 0))).errorMsg = some "Separation failed" ∧
    (PollHook.separateFromUrl [("vocals", "u")] [.failed] none
        (some (.duringCall 0))).stage = Stage.error ∧
    (PollHook.separateFromUrl [("vocals", "u")] [.processing, .succeeded] none
        (some (.duringCall 0))).stage = Stage.processing ∧
    (PollHook.separateFromUrl [("vocals", "u")] [.processing, .succeeded] none
        (some (.duringCall 0))).progress = 50 ∧
    (PollHook.separateFromUrl [("vocals", "u")] [.succeeded] none
        (some (.duringCall 0))).stage = Stage.complete := by
  refine ⟨?_, rfl, rfl, rfl, rfl, rfl⟩
  intro output script sel k h1 h2
  unfold PollHook.separateFromUrl
  rw [pollLoop_cancel output k script h1 h2]
  exact ⟨rfl, rfl, rfl, rfl⟩

/-- Witness for the hypothesis-bearing part of the C4 theorem at a concrete
input: cancelling between the first and second poll ends idle, with no
error and exactly one status call. -/
theorem cancel_mid_invoke_commits_state_witness :
    (PollHook.separateFromUrl [("vocals", "u")] [.processing, .succeeded] none
        (some (.beforeCall 1))).stage = Stage.idle ∧
    (PollHook.separateFromUrl [("vocals", "u")] [.processing, .succeeded] none
        (some (.beforeCall 1))).errorMsg = none ∧
    (PollHook.separateFromUrl [("vocals", "u")] [.processing, .succeeded] none
        (some (.beforeCall 1))).statusCalls = 1 :=
  ⟨(cancel_mid_invoke_commits_state.1 [("vocals", "u")] [.processing, .succeeded] none 1
      (by decide) (by decide)).1,
   (cancel_mid_invoke_commits_state.1 [("vocals", "u")] [.processing, .succeeded] none 1
      (by decide) (by decide)).2.1,
   (cancel_mid_invoke_commits_state.1 [("vocals", "u")] [.processing, .succeeded] none 1
      (by decide) (by decide)).2.2.2⟩

theorem progressValueFor_bounds (s : PollHook.PollStatus)
    (h : s = .starting ∨ s = .processing) :
    20 ≤ PollHook.progressValueFor s ∧ PollHook.progressValueFor s ≤ 50 := by
  rcases h with h | h <;> subst h <;> decide

theorem chain_map_progress :
    ∀ (pre : List PollHook.PollStatus),
      (∀ s ∈ pre, s = .starting ∨ s = .processing) →
      List.Chain' (fun a b => PollHook.statusRank a ≤ PollHook.statusRank b) pre →
      List.Chain' (fun a b : Nat => a ≤ b) (pre.map PollHook.progressValueFor) := by
  intro pre
  induction pre with
  | nil => intro _ _; simp
  | cons s rest ih =>
      intro hmem hchain
      cases rest with
      | nil => simp
      | cons t rest2 =>
          rw [List.map_cons, List.map_cons, List.chain'_cons]
          have hc := List.chain'_cons.mp hchain
          constructor
          · rcases hmem s (by simp) with hs | hs <;>
              rcases hmem t (by simp) with ht | ht <;> subst hs <;> subst ht <;>
                first
                  | decide
                  | (exact absurd hc.1 (by decide))
          · rw [← List.map_cons]
            exact ih (fun x hx => hmem x (by simp [hx])) hc.2

theorem chain_sandwich (m : List Nat)
    (hm : List.Chain' (fun a b : Nat => a ≤ b) m)
    (hlo : ∀ x ∈ m, 20 ≤ x) (hhi : ∀ x ∈ m, x ≤ 100) :
    List.Chain' (fun a b : Nat => a ≤ b) (20 :: m ++ [100]) := by
  refine List.chain'_cons'.mpr ⟨?_, ?_⟩
  · intro y hy
    cases m with
    | nil =>
        simp at hy
        omega
    | cons x xs =>
        simp at hy
        exact hy ▸ hlo x (by simp)
  · refine List.chain'_append.mpr ⟨hm, List.chain'_singleton _, ?_⟩
    intro x hx y hy
    simp at hy
    exact hy ▸ hhi x (List.mem_of_mem_getLast? hx)

theorem rampStep_le (k : Nat) : SyncHook.rampStep^[k] 30 ≤ 90 := by
  induction k with
  | zero =>
      rw [Function.iterate_zero_apply]
      decide
  | succ k ih =>
      rw [Function.iterate_succ_apply']
      unfold SyncHook.rampStep
      split
      · exact min_le_right _ _
      · exact ih

/-- C5 fails on the code as stated: the polling variant writes a progress
value that is a fixed function of the polled status alone (starting 25,
processing 50), so when the polled status regresses from processing to
starting the emitted progress sequence decreases (20, 50, 25, 100 here) —
the orchestrator does not enforce monotonic non-decrease. -/
theorem poll_progress_regresses_on_status_regression :
    (PollHook.separateFromUrl [("vocals", "url1")]
        [.processing, .starting, .succeeded] none none).progressTrace =
      [20, 50, 25, 100] ∧
    ¬ List.Chain' (fun a b : Nat => a ≤ b)
      (PollHook.separateFromUrl [("vocals", "url1")]
        [.processing, .starting, .succeeded] none none).progressTrace ∧
    (PollHook.separateFromUrl [("vocals", "url1")]
        [.processing, .starting, .succeeded] none none).stage = Stage.complete := by
  have htr : (PollHook.separateFromUrl [("vocals", "url1")]
      [.processing, .starting, .succeeded] none none).progressTrace =
      [20, 50, 25, 100] := rfl
  refine ⟨htr, ?_, rfl⟩
  rw [htr]
  intro hch
  have h := (List.chain'_cons.mp (List.chain'_cons.mp hch).2).1
  omega

/-- C5 as amended: for a run whose polled status sequence does not regress
(every status before the terminal one is starting or processing and their
ranks are non-decreasing, e.g. starting, processing, processing, succeeded),
the emitted progressPercent sequence is non-decreasing, the run completes,
the final emission is exactly 100 and every earlier emission is strictly
below 100. In every run whatsoever all emissions lie in [0,100] (they are
naturals, hence at least 0) and a run that does not reach stage complete
never emits 100. During the synchronous-call simulated ramp the progress
stays at or below 90, so it never claims 100 while the call is outstanding.
What the original claim adds — enforcement of non-decrease when the polled
status regresses — is refuted by the counterexample theorem. -/
theorem progress_monotone_for_nonregressing_runs :
    (∀ (output : List (String × String)) (pre : List PollHook.PollStatus),
      (∀ s ∈ pre, s = .starting ∨ s = .processing) →
      List.Chain' (fun a b => PollHook.statusRank a ≤ PollHook.statusRank b) pre →
      List.Chain' (fun a b : Nat => a ≤ b)
        (PollHook.separateFromUrl output (pre ++ [.succeeded]) none none).progressTrace ∧
      (PollHook.separateFromUrl output (pre ++ [.succeeded]) none none).stage = .complete ∧
      (PollHook.separateFromUrl output (pre ++ [.succeeded]) none none).progressTrace.getLast? =
        some 100 ∧
      (∀ p ∈ (PollHook.separateFromUrl output
          (pre ++ [.succeeded]) none none).progressTrace.dropLast, p < 100)) ∧
    (∀ (output : List (String × String)) (script : List PollHook.PollStatus)
        (sel : Option (List String)) (cp : Option PollHook.CancelPoint),
      (∀ p ∈ (PollHook.separateFromUrl output script sel cp).progressTrace, p ≤ 100) ∧
      ((PollHook.separateFromUrl output script sel cp).stage ≠ .complete →
        ∀ p ∈ (PollHook.separateFromUrl output script sel cp).progressTrace, p < 100)) ∧
    (∀ k : Nat, SyncHook.rampStep^[k] 30 ≤ 90) := by
  refine ⟨?_, ?_, rampStep_le⟩
  · intro output pre hmem hchain
    have hlo : ∀ x ∈ pre.map PollHook.progressValueFor, 20 ≤ x := by
      intro x hx
      obtain ⟨s, hs, rfl⟩ := List.mem_map.mp hx
      exact (progressValueFor_bounds s (hmem s hs)).1
    have hhi : ∀ x ∈ pre.map PollHook.progressValueFor, x ≤ 100 := by
      intro x hx
      obtain ⟨s, hs, rfl⟩ := List.mem_map.mp hx
      have := (progressValueFor_bounds s (hmem s hs)).2
      omega
    unfold PollHook.separateFromUrl
    rw [pollLoop_success output pre hmem]
    dsimp only
    refine ⟨?_, rfl, ?_, ?_⟩
    · exact chain_sandwich _ (chain_map_progress pre hmem hchain) hlo hhi
    · rw [List.getLast?_concat]
    · rw [List.dropLast_concat]
      intro p hp
      rcases List.mem_cons.mp hp with h | h
      · omega
      · obtain ⟨s, hs, rfl⟩ := List.mem_map.mp h
        have := (progressValueFor_bounds s (hmem s hs)).2
        omega
  · intro output script sel cp
    rcases hr : PollHook.pollLoop output script cp with ⟨o, c, tr⟩
    have htr : ∀ p ∈ tr, p ≤ 50 := by
      have h := pollLoop_trace_le output script cp
      rw [hr] at h
      exact h
    unfold PollHook.separateFromUrl
    rw [hr]
    cases o with
    | success results =>
        dsimp only
        refine ⟨?_, ?_⟩
        · intro p hp
          simp at hp
          rcases hp with h | h | h
          · omega
          · have := htr p h; omega
          · omega
        · intro hst
          exact absurd rfl hst
    | failure msg =>
        dsimp only
        refine ⟨?_, ?_⟩
        · intro p hp
          simp at hp
          rcases hp with h | h | h
          · omega
          · have := htr p h; omega
          · omega
        · intro _ p hp
          simp at hp
          rcases hp with h | h | h
          · omega
          · have := htr p h; omega
          · omega
    | cancelled =>
        dsimp only
        refine ⟨?_, ?_⟩
        · intro p hp
          simp at hp
          rcases hp with h | h | h
          · omega
          · have := htr p h; omega
          · omega
        · intro _ p hp
          simp at hp
          rcases hp with h | h | h
          · omega
          · have := htr p h; omega
          · omega
    | cancelledAfterCommit st =>
        dsimp only
        have hst : PollHook.progressValueFor st ≤ 50 := by cases st <;> decide
        refine ⟨?_, ?_⟩
        · intro p hp
          simp at hp
          rcases hp with h | h | h | h
          · omega
          · have := htr p h; omega
          · omega
          · omega
        · intro _ p hp
          simp at hp
          rcases hp with h | h | h | h
          · omega
          · have := htr p h; omega
          · omega
          · omega

/-- Witness for the amended C5 at a concrete input: for the polled status
sequence starting, processing, processing, succeeded the emitted progress
sequence is non-decreasing and the run completes. -/
theorem progress_monotone_for_nonregressing_runs_witness :
    List.Chain' (fun a b : Nat => a ≤ b)
      (PollHook.separateFromUrl [("vocals", "url1")]
        ([.starting, .processing, .processing] ++ [.succeeded]) none none).progressTrace ∧
    (PollHook.separateFromUrl [("vocals", "url1")]
        ([.starting, .processing, .processing] ++ [.succeeded]) none none).stage =
      Stage.complete :=
  ⟨(progress_monotone_for_nonregressing_runs.1 [("vocals", "url1")]
      [.starting, .processing, .processing] (by decide)
      (by simp [List.chain'_cons, List.chain'_singleton, PollHook.statusRank])).1,
   (progress_monotone_for_nonregressing_runs.1 [("vocals", "url1")]
      [.starting, .processing, .processing] (by decide)
      (by simp [List.chain'_cons, List.chain'_singleton, PollHook.statusRank])).2.1⟩
